import Mathlib

/-!
Shallow embedding of the voiceflow repository's two scripts,
`src/extract_transcript.py` and `src/generate_folder_tree.py`,
together with theorems settling the specification claims.

Strings are modelled as `List Char`; Python whitespace is modelled by the
six ASCII whitespace characters (space, tab, newline, carriage return,
vertical tab, form feed), which is what `str.strip` and the regex class
`\s` amount to on ASCII input.  The filesystem is modelled explicitly:
reading a file becomes a function from paths to line lists, and writing a
file becomes a value describing the file's new content.
-/

namespace Voiceflow

/-- The six ASCII whitespace characters: the ASCII content of Python's
`str.strip` default set and of the regex class `\s`. -/
def isSpaceCh (c : Char) : Bool :=
  c == ' ' || c == '\t' || c == '\n' || c == '\r' || c == '\x0b' || c == '\x0c'

/-- ASCII decimal digit, the content of the regex class `\d`. -/
def isDigitCh (c : Char) : Bool :=
  '0' ≤ c && c ≤ '9'

/-- A character of the regex class `[\d:]` (a "time token" character). -/
def isTimeCh (c : Char) : Bool :=
  isDigitCh c || c == ':'

/-- Python `line.strip()`: remove leading and trailing whitespace. -/
def pyStrip (s : List Char) : List Char :=
  ((s.dropWhile isSpaceCh).reverse.dropWhile isSpaceCh).reverse

/-- Python `s.startswith('//')` from `extract_transcript.py` line 35. -/
def startsWithSlashSlash (s : List Char) : Bool :=
  "//".toList.isPrefixOf s

/-- The part of the regex `^Speaker\s+\d+\s+[\d:]{5,}\s+-\s+[\d:]{5,}\s*$`
after the literal `Speaker`.  Every boundary in the regex separates two
disjoint character classes, so the backtracking regex is equivalent to this
maximal-munch scan: take the maximal run of each class and check the run
length constraints, the literal dash, and that only whitespace remains. -/
def matchAfterSpeaker (r1 : List Char) : Bool :=
  let ws1 := r1.takeWhile isSpaceCh
  let r2 := r1.dropWhile isSpaceCh
  let ds := r2.takeWhile isDigitCh
  let r3 := r2.dropWhile isDigitCh
  let ws2 := r3.takeWhile isSpaceCh
  let r4 := r3.dropWhile isSpaceCh
  let t1 := r4.takeWhile isTimeCh
  let r5 := r4.dropWhile isTimeCh
  let ws3 := r5.takeWhile isSpaceCh
  let r6 := r5.dropWhile isSpaceCh
  !ws1.isEmpty && !ds.isEmpty && !ws2.isEmpty && decide (5 ≤ t1.length) &&
    !ws3.isEmpty &&
    (match r6 with
     | '-' :: r7 =>
       let ws4 := r7.takeWhile isSpaceCh
       let r8 := r7.dropWhile isSpaceCh
       let t2 := r8.takeWhile isTimeCh
       let r9 := r8.dropWhile isTimeCh
       !ws4.isEmpty && decide (5 ≤ t2.length) && (r9.dropWhile isSpaceCh).isEmpty
     | _ => false)

/-- `re.match(r'^Speaker\s+\d+\s+[\d:]{5,}\s+-\s+[\d:]{5,}\s*$', s)` as a
Boolean: the literal prefix `Speaker` followed by the rest of the pattern
(`extract_transcript.py` line 33). -/
def matchesSpeakerTs (s : List Char) : Bool :=
  "Speaker".toList.isPrefixOf s &&
    matchAfterSpeaker (s.drop "Speaker".toList.length)

/-- The filter condition of the list comprehension at
`extract_transcript.py` lines 31-36, in source order: not a
speaker/timestamp header, non-empty after stripping, and not starting
with `//` after stripping. -/
def keepLine (line : List Char) : Bool :=
  !matchesSpeakerTs (pyStrip line) && !(pyStrip line).isEmpty &&
    !startsWithSlashSlash (pyStrip line)

/-- `text_lines = [line.strip() for line in lines if ...]`
(`extract_transcript.py` lines 31-36). -/
def extract_transcript_lines (lines : List (List Char)) : List (List Char) :=
  (lines.filter keepLine).map pyStrip

/-- Python `' '.join`. -/
def joinSpace : List (List Char) → List Char
  | [] => []
  | [x] => x
  | x :: y :: xs => x ++ ' ' :: joinSpace (y :: xs)

/-- `' '.join(text_lines)` applied to the filtered, stripped lines
(`extract_transcript.py` line 38). -/
def extract_text_of_lines (lines : List (List Char)) : List Char :=
  joinSpace (extract_transcript_lines lines)

/-- The filesystem as seen by `extract_transcript_text`:
`os.path.exists` and `readlines` (the `time.sleep(0.1)` between them has
no effect on the value computed and is not modelled). -/
structure FS where
  pathExists : List Char → Bool
  readLines : List Char → List (List Char)

/-- The error string returned at `extract_transcript.py` line 20,
up to the interpolated path. -/
def fileNotFoundMsg : List Char :=
  "Error: File not found at ".toList

/-- `extract_transcript_text(file_path)` (`extract_transcript.py`
lines 8-38): returns the error string when the path does not exist,
otherwise reads the lines, filters and strips them, and joins them with
single spaces. -/
def extract_transcript_text (fs : FS) (file_path : List Char) : List Char :=
  if fs.pathExists file_path = false then
    fileNotFoundMsg ++ file_path
  else
    extract_text_of_lines (fs.readLines file_path)

/-- Spec-side rendering of §4.1 / §8 of the specification (for the
refinement comparison with `extract_transcript_lines`): scan the lines in
order and retain the trimmed content of each line that is non-empty after
trimming, does not begin with `//` after trimming, and does not match the
speaker/timestamp pattern. -/
def cleanedLinesSpec : List (List Char) → List (List Char)
  | [] => []
  | l :: ls =>
    if !(pyStrip l).isEmpty && !startsWithSlashSlash (pyStrip l) &&
        !matchesSpeakerTs (pyStrip l) then
      pyStrip l :: cleanedLinesSpec ls
    else
      cleanedLinesSpec ls

/-- Spec-side extraction result: the retained trimmed lines joined with
single spaces, in their original relative order. -/
def extract_text_spec (lines : List (List Char)) : List Char :=
  joinSpace (cleanedLinesSpec lines)

/-- `os.path.basename` on a POSIX path: the characters after the last
separator. -/
def basenameChars (s : List Char) : List Char :=
  (s.reverse.takeWhile (fun c => !(c == '/'))).reverse

/-- The fields set up by `TranscriptChangeHandler.__init__`
(`extract_transcript.py` lines 43-46). -/
structure HandlerState where
  file_path : List Char
  filename : List Char
  output_file_path : List Char

/-- A watchdog filesystem event as consumed by `on_modified`:
its `src_path` and its `is_directory` flag. -/
structure FsEvent where
  src_path : List Char
  is_directory : Bool

/-- `TranscriptChangeHandler._process` (`extract_transcript.py`
lines 54-62): run extraction, then `open(output, 'w')` truncates the
output file (the `[]`) and `f.write` appends the cleaned text; the three
printed strings are returned alongside the new output-file content. -/
def handler_process (fs : FS) (st : HandlerState) (_out_old : List Char) :
    List Char × List (List Char) :=
  let cleaned := extract_transcript_text fs st.file_path
  (([] : List Char) ++ cleaned,
   ["--- Cleaned Transcript ---".toList, cleaned,
    "\nWatching for file changes... (Press Ctrl+C to stop)".toList])

/-- `TranscriptChangeHandler.__init__` (`extract_transcript.py`
lines 43-47): record the path, its basename and the output path, then run
one processing cycle; returns the handler state and the output file's new
content. -/
def handler_init (fs : FS) (file_path output_file_path : List Char)
    (out_old : List Char) : HandlerState × List Char :=
  let st : HandlerState := ⟨file_path, basenameChars file_path, output_file_path⟩
  (st, (handler_process fs st out_old).1)

/-- `TranscriptChangeHandler.on_modified` (`extract_transcript.py`
lines 49-52): reprocess when the event is not a directory event and the
event path's basename equals the tracked basename, else leave the output
file unchanged; returns the output file's content afterwards. -/
def on_modified (fs : FS) (st : HandlerState) (ev : FsEvent)
    (out_old : List Char) : List Char :=
  if !ev.is_directory && (basenameChars ev.src_path == st.filename) then
    (handler_process fs st out_old).1
  else
    out_old

/-- Python `s.replace(old, new)` scanning left to right, bounded by fuel:
at each position, if `old` is a non-empty prefix of the rest, emit `new`
and skip past it, otherwise copy one character. -/
def pyReplaceAux (old new : List Char) : Nat → List Char → List Char
  | 0, s => s
  | _ + 1, [] => []
  | f + 1, c :: t =>
    if !old.isEmpty && old.isPrefixOf (c :: t) then
      new ++ pyReplaceAux old new f ((c :: t).drop old.length)
    else
      c :: pyReplaceAux old new f t

/-- Python `s.replace(old, new)`: replace every leftmost non-overlapping
occurrence of `old` in `s` with `new`.  For empty `old`, Python inserts
`new` before every character and at the end. -/
def pyReplace (old new s : List Char) : List Char :=
  if old.isEmpty then new ++ s.foldr (fun c acc => c :: (new ++ acc)) []
  else pyReplaceAux old new s.length s

/-- `.count(os.sep)` with `os.sep = '/'`. -/
def countSep (s : List Char) : Nat :=
  s.count '/'

/-- `level = dirpath.replace(root_dir, '').count(os.sep)`
(`generate_folder_tree.py` line 22). -/
def levelOf (root_dir dirpath : List Char) : Nat :=
  countSep (pyReplace root_dir [] dirpath)

/-- Modelled from the spec's words for the refinement comparison with
`levelOf`: "computes its depth as the count of path-separator characters
in the path remaining after stripping the root prefix". -/
def levelSpecStrip (root_dir dirpath : List Char) : Nat :=
  countSep (if root_dir.isPrefixOf dirpath then dirpath.drop root_dir.length
            else dirpath)

/-- Whether `pat` occurs as a contiguous substring of the second list. -/
def containsSub (pat : List Char) : List Char → Bool
  | [] => pat.isEmpty
  | c :: t => pat.isPrefixOf (c :: t) || containsSub pat t

/-- One `os.walk` triple `(dirpath, dirnames, filenames)`. -/
structure WalkEntry where
  dirpath : List Char
  dirnames : List (List Char)
  filenames : List (List Char)

/-- The indentation token `'│   '`. -/
def vertTok : List Char := "│   ".toList

/-- The continuing connector `'├── '`. -/
def connCont : List Char := "├── ".toList

/-- The last-entry connector `'└── '`. -/
def connLast : List Char := "└── ".toList

/-- Python `'│   ' * n`. -/
def repeatTok (n : Nat) : List Char :=
  (List.replicate n vertTok).flatten

/-- The file lines written for one directory (`generate_folder_tree.py`
lines 31-34): `'│   ' * level`, then `'└── '` for the last file in the
listing and `'├── '` for every other file, then the filename and a
newline. -/
def fileLinesAux (level : Nat) : List (List Char) → List Char
  | [] => []
  | fn :: fns =>
    repeatTok level ++ (if fns.isEmpty then connLast else connCont) ++ fn ++
      "\n".toList ++ fileLinesAux level fns

/-- The text written for one `os.walk` triple (`generate_folder_tree.py`
lines 20-34): the directory line (indent, basename, trailing slash) then
the file lines. -/
def entryText (root_dir : List Char) (e : WalkEntry) : List Char :=
  let level := levelOf root_dir e.dirpath
  let indent := if 0 < level then repeatTok (level - 1) ++ connCont else []
  (indent ++ basenameChars e.dirpath ++ "/\n".toList) ++
    fileLinesAux level e.filenames

/-- The concatenated per-directory text for the whole walk. -/
def treeBody (root_dir : List Char) (walk : List WalkEntry) : List Char :=
  (walk.map (entryText root_dir)).flatten

/-- `f"Directory tree for: {root_dir}\n\n"` (`generate_folder_tree.py`
line 16). -/
def treeHeader (root_dir : List Char) : List Char :=
  "Directory tree for: ".toList ++ root_dir ++ "\n\n".toList

/-- The observable outcome of `generate_directory_tree`: the output
file's content if one was written, and the console messages printed. -/
structure TreeResult where
  written : Option (List Char)
  printed : List (List Char)

/-- `generate_directory_tree(root_dir, output_file)`
(`generate_folder_tree.py` lines 3-36).  `rootIsDir` models
`os.path.isdir(root_dir)` and `walk` models the `os.walk(root_dir)`
sequence.  When the root is not a directory the function prints an error
and returns without writing; otherwise it writes the header and the body
and prints the confirmation line. -/
def generate_directory_tree (rootIsDir : Bool) (walk : List WalkEntry)
    (root_dir output_file : List Char) : TreeResult :=
  if rootIsDir = false then
    { written := none,
      printed := ["Error: Directory '".toList ++ root_dir ++
        "' not found.".toList] }
  else
    { written := some (treeHeader root_dir ++ treeBody root_dir walk),
      printed := ["Directory structure has been saved to '".toList ++
        output_file ++ "'".toList] }

/-! ### Concrete fixtures used by witnesses and counterexamples -/

/-- A filesystem on which no path exists. -/
def fsMissing : FS := ⟨fun _ => false, fun _ => []⟩

/-- A filesystem holding a one-line transcript, for the watcher claims. -/
def fsWatch : FS := ⟨fun _ => true, fun _ => ["Hello there".toList]⟩

/-- The handler state built by construction over `fsWatch`. -/
def stWatch : HandlerState :=
  (handler_init fsWatch "/watch/transcript.txt".toList
    "/watch/cleaned_transcript.txt".toList []).1

/-- A directory event whose basename equals the tracked basename. -/
def evDirSameName : FsEvent := ⟨"/watch/transcript.txt".toList, true⟩

/-- A file event on the tracked file. -/
def evFileSameName : FsEvent := ⟨"/watch/transcript.txt".toList, false⟩

/-- A file event on a different file in the watched directory. -/
def evOtherFile : FsEvent := ⟨"/watch/notes.txt".toList, false⟩

/-- Stale content sitting in the output file before an event. -/
def oldOut : List Char := "stale content".toList

/-- A filesystem whose transcript consists only of a comment line, a
whitespace-only line and a speaker/timestamp header line. -/
def fsAllFiltered : FS :=
  ⟨fun _ => true,
   fun _ => ["// transcript.txt".toList, "   ".toList,
     "Speaker 2 0:01:00 - 0:02:11".toList]⟩

/-! ### Helper lemmas -/

theorem isPrefixOf_append_self (xs ys : List Char) :
    xs.isPrefixOf (xs ++ ys) = true := by
  induction xs with
  | nil => simp [List.isPrefixOf]
  | cons a as ih => simp [List.isPrefixOf, ih]

theorem pyReplaceAux_nil (old new : List Char) (f : Nat) :
    pyReplaceAux old new f [] = [] := by
  cases f with
  | zero => rfl
  | succ f => rfl

theorem pyReplaceAux_fuel (old new : List Char) :
    ∀ f1 f2 s, s.length ≤ f1 → s.length ≤ f2 →
      pyReplaceAux old new f1 s = pyReplaceAux old new f2 s := by
  intro f1
  induction f1 with
  | zero =>
    intro f2 s h1 _
    have hs : s = [] := List.eq_nil_of_length_eq_zero (Nat.le_zero.mp h1)
    subst hs
    rw [pyReplaceAux_nil, pyReplaceAux_nil]
  | succ f ih =>
    intro f2 s h1 h2
    cases s with
    | nil => rw [pyReplaceAux_nil, pyReplaceAux_nil]
    | cons c t =>
      cases f2 with
      | zero =>
        exact absurd h2 (by simp)
      | succ f2 =>
        simp only [pyReplaceAux]
        by_cases hc : (!old.isEmpty && old.isPrefixOf (c :: t)) = true
        · rw [if_pos hc, if_pos hc]
          have hol : 1 ≤ old.length := by
            have hne : old.isEmpty = false := by
              have := ((Bool.and_eq_true _ _).mp hc).1
              simpa using this
            cases old with
            | nil => simp at hne
            | cons _ _ => simp
          have hl1 : (c :: t).length ≤ f + 1 := h1
          have hl2 : (c :: t).length ≤ f2 + 1 := h2
          rw [ih f2 _ (by rw [List.length_drop]; omega)
            (by rw [List.length_drop]; omega)]
        · rw [if_neg hc, if_neg hc]
          have hl1 : t.length ≤ f := by
            have := h1; simp [List.length_cons] at this; omega
          have hl2 : t.length ≤ f2 := by
            have := h2; simp [List.length_cons] at this; omega
          rw [ih f2 t hl1 hl2]

theorem pyReplace_eat (old new rest : List Char) (hne : old ≠ []) :
    pyReplace old new (old ++ rest) = new ++ pyReplace old new rest := by
  cases old with
  | nil => exact absurd rfl hne
  | cons a as =>
    have hemp : (a :: as).isEmpty = false := rfl
    simp only [pyReplace, hemp, Bool.false_eq_true, if_false]
    rw [show ((a :: as) ++ rest).length = (as ++ rest).length + 1 by simp,
      List.cons_append]
    simp only [pyReplaceAux]
    have hp : (a :: as).isPrefixOf (a :: (as ++ rest)) = true :=
      isPrefixOf_append_self (a :: as) rest
    rw [if_pos (by simp [hp])]
    have hdrop : (a :: (as ++ rest)).drop (a :: as).length = rest := by
      rw [List.length_cons, List.drop_succ_cons, List.drop_left]
    rw [hdrop]
    congr 1
    exact pyReplaceAux_fuel _ _ _ _ _ (by simp) (le_refl _)

theorem pyReplace_not_contained (old new s : List Char) (hne : old ≠ [])
    (h : containsSub old s = false) : pyReplace old new s = s := by
  have hemp : old.isEmpty = false := by
    cases old with
    | nil => exact absurd rfl hne
    | cons _ _ => rfl
  have key : ∀ f s, s.length ≤ f → containsSub old s = false →
      pyReplaceAux old new f s = s := by
    intro f
    induction f with
    | zero =>
      intro s h1 _
      have hs : s = [] := List.eq_nil_of_length_eq_zero (Nat.le_zero.mp h1)
      subst hs
      rfl
    | succ f ih =>
      intro s h1 h2
      cases s with
      | nil => rfl
      | cons c t =>
        have h3 : old.isPrefixOf (c :: t) = false ∧ containsSub old t = false := by
          simpa [containsSub] using h2
        simp only [pyReplaceAux]
        rw [if_neg (by simp [h3.1])]
        have hl : t.length ≤ f := by
          have := h1; simp [List.length_cons] at this; omega
        rw [ih t hl h3.2]
  simp only [pyReplace, hemp, Bool.false_eq_true, if_false]
  exact key _ _ (le_refl _) h

theorem pyReplace_self (root : List Char) : pyReplace root [] root = [] := by
  cases root with
  | nil => rfl
  | cons a as =>
    have h := pyReplace_eat (a :: as) [] [] (by simp)
    rw [List.append_nil] at h
    rw [h]
    rfl

theorem head_not (p : Char → Bool) (c0 : Char) (rest : List Char)
    (h : p c0 = false) :
    ∀ c, (c0 :: rest).head? = some c → p c = false := by
  intro c hc
  have hc0 : c0 = c := by simpa using hc
  rw [← hc0]
  exact h

theorem takeWhile_cat (p : Char → Bool) :
    ∀ (xs ys : List Char), (∀ c ∈ xs, p c = true) →
      (∀ c, ys.head? = some c → p c = false) →
      (xs ++ ys).takeWhile p = xs := by
  intro xs
  induction xs with
  | nil =>
    intro ys _ hy
    cases ys with
    | nil => rfl
    | cons c t => simp [List.takeWhile_cons, hy c rfl]
  | cons a as ih =>
    intro ys hx hy
    have ha : p a = true := hx a (List.mem_cons_self a as)
    simp only [List.cons_append, List.takeWhile_cons, ha, if_true]
    rw [ih ys (fun c hc => hx c (List.mem_cons_of_mem a hc)) hy]

theorem dropWhile_cat (p : Char → Bool) :
    ∀ (xs ys : List Char), (∀ c ∈ xs, p c = true) →
      (∀ c, ys.head? = some c → p c = false) →
      (xs ++ ys).dropWhile p = ys := by
  intro xs
  induction xs with
  | nil =>
    intro ys _ hy
    cases ys with
    | nil => rfl
    | cons c t => simp [List.dropWhile_cons, hy c rfl]
  | cons a as ih =>
    intro ys hx hy
    have ha : p a = true := hx a (List.mem_cons_self a as)
    simp only [List.cons_append, List.dropWhile_cons, ha, if_true]
    exact ih ys (fun c hc => hx c (List.mem_cons_of_mem a hc)) hy

theorem not_digit_of_space (c : Char) (h : isSpaceCh c = true) :
    isDigitCh c = false := by
  simp only [isSpaceCh, Bool.or_eq_true, beq_iff_eq] at h
  rcases h with ((((rfl | rfl) | rfl) | rfl) | rfl) | rfl <;> decide

theorem not_space_of_digit (c : Char) (h : isDigitCh c = true) :
    isSpaceCh c = false := by
  cases hs : isSpaceCh c
  · rfl
  · rw [not_digit_of_space c hs] at h
    exact absurd h (by simp)

theorem not_space_of_time (c : Char) (h : isTimeCh c = true) :
    isSpaceCh c = false := by
  simp only [isTimeCh, Bool.or_eq_true, beq_iff_eq] at h
  rcases h with h | rfl
  · exact not_space_of_digit c h
  · decide

/-- The speaker/timestamp regex rejects a trimmed line of the shape
`Speaker`, whitespace, digits, whitespace, time token, dash, time token
with no whitespace around the dash: the `\s+` required before the dash
matches nothing. -/
theorem matchesSpeakerTs_no_ws_dash (ws1 ds ws2 t1 t2 : List Char)
    (hws1 : ∀ c ∈ ws1, isSpaceCh c = true)
    (hds : ds ≠ []) (hdsd : ∀ c ∈ ds, isDigitCh c = true)
    (hws2 : ws2 ≠ []) (hws2s : ∀ c ∈ ws2, isSpaceCh c = true)
    (ht1len : 5 ≤ t1.length) (ht1 : ∀ c ∈ t1, isTimeCh c = true) :
    matchesSpeakerTs ("Speaker".toList ++
      (ws1 ++ (ds ++ (ws2 ++ (t1 ++ '-' :: t2))))) = false := by
  obtain ⟨d0, ds', rfl⟩ := List.exists_cons_of_ne_nil hds
  obtain ⟨w0, ws2', rfl⟩ := List.exists_cons_of_ne_nil hws2
  have ht1ne : t1 ≠ [] := by
    intro h; rw [h] at ht1len; simp at ht1len
  obtain ⟨u0, t1', rfl⟩ := List.exists_cons_of_ne_nil ht1ne
  have hd0 : isDigitCh d0 = true := hdsd d0 (List.mem_cons_self _ _)
  have hw0 : isSpaceCh w0 = true := hws2s w0 (List.mem_cons_self _ _)
  have hu0 : isTimeCh u0 = true := ht1 u0 (List.mem_cons_self _ _)
  simp only [matchesSpeakerTs]
  rw [isPrefixOf_append_self, List.drop_left, Bool.true_and]
  simp only [matchAfterSpeaker]
  rw [takeWhile_cat isSpaceCh ws1
        ((d0 :: ds') ++ ((w0 :: ws2') ++ ((u0 :: t1') ++ '-' :: t2)))
        hws1 (head_not _ d0 _ (not_space_of_digit d0 hd0)),
      dropWhile_cat isSpaceCh ws1
        ((d0 :: ds') ++ ((w0 :: ws2') ++ ((u0 :: t1') ++ '-' :: t2)))
        hws1 (head_not _ d0 _ (not_space_of_digit d0 hd0))]
  rw [takeWhile_cat isDigitCh (d0 :: ds')
        ((w0 :: ws2') ++ ((u0 :: t1') ++ '-' :: t2))
        hdsd (head_not _ w0 _ (not_digit_of_space w0 hw0)),
      dropWhile_cat isDigitCh (d0 :: ds')
        ((w0 :: ws2') ++ ((u0 :: t1') ++ '-' :: t2))
        hdsd (head_not _ w0 _ (not_digit_of_space w0 hw0))]
  rw [takeWhile_cat isSpaceCh (w0 :: ws2') ((u0 :: t1') ++ '-' :: t2)
        hws2s (head_not _ u0 _ (not_space_of_time u0 hu0)),
      dropWhile_cat isSpaceCh (w0 :: ws2') ((u0 :: t1') ++ '-' :: t2)
        hws2s (head_not _ u0 _ (not_space_of_time u0 hu0))]
  rw [takeWhile_cat isTimeCh (u0 :: t1') ('-' :: t2)
        ht1 (head_not _ '-' _ (by decide)),
      dropWhile_cat isTimeCh (u0 :: t1') ('-' :: t2)
        ht1 (head_not _ '-' _ (by decide))]
  rw [List.takeWhile_cons_of_neg (show ¬ isSpaceCh '-' = true by decide)]
  simp

/-! ### Claims -/

/-- C4: for every path at which no file exists, extraction returns (does
not raise) a string that begins with "Error:" and contains that path. -/
theorem c4_missing_file_error (fs : FS) (path : List Char)
    (h : fs.pathExists path = false) :
    (∃ rest, extract_transcript_text fs path = "Error:".toList ++ rest) ∧
    ∃ a b, extract_transcript_text fs path = a ++ path ++ b := by
  have he : extract_transcript_text fs path = fileNotFoundMsg ++ path := by
    simp [extract_transcript_text, h]
  constructor
  · refine ⟨" File not found at ".toList ++ path, ?_⟩
    rw [he, show fileNotFoundMsg =
      "Error:".toList ++ " File not found at ".toList from rfl,
      List.append_assoc]
  · exact ⟨fileNotFoundMsg, [], by rw [he, List.append_nil]⟩

/-- Witness for C4 at the concrete path "/tmp/nope.txt" on a filesystem
where no path exists. -/
theorem c4_missing_file_error_witness :
    fsMissing.pathExists "/tmp/nope.txt".toList = false ∧
    ((∃ rest, extract_transcript_text fsMissing "/tmp/nope.txt".toList =
        "Error:".toList ++ rest) ∧
     ∃ a b, extract_transcript_text fsMissing "/tmp/nope.txt".toList =
        a ++ "/tmp/nope.txt".toList ++ b) :=
  ⟨rfl, c4_missing_file_error fsMissing "/tmp/nope.txt".toList rfl⟩

/-- C5: for every root path that is not a valid directory, tree rendering
writes no output file and reports an error message containing the given
path, then returns. -/
theorem c5_invalid_root_writes_nothing (walk : List WalkEntry)
    (root out : List Char) :
    (generate_directory_tree false walk root out).written = none ∧
    ∃ a b, (generate_directory_tree false walk root out).printed =
      [a ++ root ++ b] :=
  ⟨rfl, "Error: Directory '".toList, "' not found.".toList, rfl⟩

/-- C6: after handler construction and after every processing cycle, the
output file's entire content equals the extraction result for the watched
file; the previous output content (`out_old`, `out_old2`) does not appear
in the result, so the write is truncate-and-write, never an append. -/
theorem c6_output_equals_extraction (fs : FS)
    (file_path output_path out_old : List Char) (st : HandlerState)
    (out_old2 : List Char) :
    (handler_init fs file_path output_path out_old).2 =
      extract_transcript_text fs file_path ∧
    (handler_process fs st out_old2).1 =
      extract_transcript_text fs st.file_path :=
  ⟨rfl, rfl⟩

/-- C8: for a valid root directory containing no subdirectories and
exactly the files ["a.txt","b.txt"] in traversal order, tree rendering
produces the header, one directory line (root basename plus slash), a
first file line using the continuing connector `├── ` and a second file
line using the last connector `└── `. -/
theorem c8_two_files_connectors (root out : List Char) :
    (generate_directory_tree true
        [⟨root, [], ["a.txt".toList, "b.txt".toList]⟩] root out).written =
      some (treeHeader root ++
        (basenameChars root ++ "/\n".toList ++
          (connCont ++ "a.txt".toList ++ "\n".toList ++
            (connLast ++ "b.txt".toList ++ "\n".toList)))) := by
  have hlevel : levelOf root root = 0 := by
    simp [levelOf, pyReplace_self, countSep]
  simp [generate_directory_tree, treeBody, entryText, fileLinesAux, hlevel,
    repeatTok, List.append_assoc]

/-- C3 counterexample: the code computes the depth of a visited directory
with `dirpath.replace(root_dir, '').count(os.sep)`, which deletes every
occurrence of the root string, not only the leading prefix.  For root
"/a" and the visited directory "/a/a" (the `os.walk` path of a
subdirectory named "a" directly under the root "/a"), the code's depth is
0 while the count after stripping only the root prefix is 1. -/
theorem c3_depth_counterexample :
    "/a".toList ++ "/a".toList = "/a/a".toList ∧
    levelOf "/a".toList "/a/a".toList = 0 ∧
    levelSpecStrip "/a".toList "/a/a".toList = 1 ∧
    levelOf "/a".toList "/a/a".toList ≠
      levelSpecStrip "/a".toList "/a/a".toList := by
  decide

/-- C3 amended: the depth is the separator count of the path remaining
after deleting every leftmost non-overlapping occurrence of the root
string from the directory's path; this agrees with the count after
stripping only the root prefix whenever the root string does not reoccur
in the remainder of the path. -/
theorem c3_depth_replace_all (root rest : List Char) (hne : root ≠ [])
    (hno : containsSub root rest = false) :
    levelOf root (root ++ rest) = levelSpecStrip root (root ++ rest) ∧
    levelOf root (root ++ rest) = countSep rest := by
  have h1 : pyReplace root [] (root ++ rest) = rest := by
    rw [pyReplace_eat root [] rest hne,
      pyReplace_not_contained root [] rest hne hno]
    rfl
  have h2 : levelOf root (root ++ rest) = countSep rest := by
    unfold levelOf
    rw [h1]
  refine ⟨?_, h2⟩
  rw [h2]
  simp [levelSpecStrip, isPrefixOf_append_self, List.drop_left]

/-- Witness for C3's amended statement at root "/a" and remainder "/b",
i.e. the visited directory "/a/b". -/
theorem c3_depth_replace_all_witness :
    ("/a".toList ≠ ([] : List Char)) ∧
    containsSub "/a".toList "/b".toList = false ∧
    (levelOf "/a".toList ("/a".toList ++ "/b".toList) =
        levelSpecStrip "/a".toList ("/a".toList ++ "/b".toList) ∧
      levelOf "/a".toList ("/a".toList ++ "/b".toList) =
        countSep "/b".toList) :=
  ⟨by decide, by decide,
    c3_depth_replace_all "/a".toList "/b".toList (by decide) (by decide)⟩

/-- C1: every input line whose trimmed form matches the speaker/timestamp
pattern of `extract_transcript.py` line 33 is rejected by the filter and
therefore excluded from the extraction result. -/
theorem c1_speaker_header_excluded (line : List Char)
    (h : matchesSpeakerTs (pyStrip line) = true) :
    keepLine line = false ∧
    ∀ pre post, extract_transcript_lines (pre ++ line :: post) =
      extract_transcript_lines (pre ++ post) := by
  have hk : keepLine line = false := by simp [keepLine, h]
  refine ⟨hk, fun pre post => ?_⟩
  simp [extract_transcript_lines, List.filter_append, List.filter_cons, hk]

/-- Witness for C1 at the header line "Speaker 1 0:00:10 - 0:00:18"
between two content lines. -/
theorem c1_speaker_header_excluded_witness :
    matchesSpeakerTs (pyStrip "Speaker 1 0:00:10 - 0:00:18".toList) = true ∧
    extract_transcript_lines (["Hello world".toList] ++
        "Speaker 1 0:00:10 - 0:00:18".toList :: ["Second line".toList]) =
      extract_transcript_lines
        (["Hello world".toList] ++ ["Second line".toList]) :=
  ⟨by decide,
    (c1_speaker_header_excluded "Speaker 1 0:00:10 - 0:00:18".toList
      (by decide)).2 ["Hello world".toList] ["Second line".toList]⟩

/-- C2: extraction retains exactly the lines that are non-empty after
trimming, do not start with "//" after trimming and do not match the
speaker/timestamp pattern, and the result is the trimmed retained lines
joined with single spaces in their original relative order — i.e. the
code's filter/map/join agrees with the spec-side scan
`cleanedLinesSpec` / `extract_text_spec`. -/
theorem c2_extraction_characterization (lines : List (List Char)) :
    extract_transcript_lines lines = cleanedLinesSpec lines ∧
    extract_text_of_lines lines = extract_text_spec lines := by
  have key : ∀ ls : List (List Char),
      extract_transcript_lines ls = cleanedLinesSpec ls := by
    intro ls
    induction ls with
    | nil => rfl
    | cons l t ih =>
      have step : extract_transcript_lines (l :: t) =
          if keepLine l then pyStrip l :: extract_transcript_lines t
          else extract_transcript_lines t := by
        by_cases hk : keepLine l = true <;>
          simp [extract_transcript_lines, List.filter_cons, hk]
      rw [step, ih]
      cases h1 : matchesSpeakerTs (pyStrip l) <;>
        cases h2 : (pyStrip l).isEmpty <;>
          cases h3 : startsWithSlashSlash (pyStrip l) <;>
            simp [cleanedLinesSpec, keepLine, h1, h2, h3]
  exact ⟨key lines, by simp [extract_text_of_lines, extract_text_spec, key lines]⟩

/-- C9: a line whose trimmed form is `Speaker`, whitespace, digits,
whitespace, a time token, a dash with no whitespace around it, and a
second time token does not match the header pattern (which requires
whitespace on both sides of the dash), so extraction retains its trimmed
content. -/
theorem c9_dash_without_spaces_retained (line ws1 ds ws2 t1 t2 : List Char)
    (hline : pyStrip line = "Speaker".toList ++
      (ws1 ++ (ds ++ (ws2 ++ (t1 ++ '-' :: t2)))))
    (hws1 : ∀ c ∈ ws1, isSpaceCh c = true)
    (hds : ds ≠ []) (hdsd : ∀ c ∈ ds, isDigitCh c = true)
    (hws2 : ws2 ≠ []) (hws2s : ∀ c ∈ ws2, isSpaceCh c = true)
    (ht1len : 5 ≤ t1.length) (ht1 : ∀ c ∈ t1, isTimeCh c = true)
    (_ht2len : 5 ≤ t2.length) (_ht2 : ∀ c ∈ t2, isTimeCh c = true) :
    keepLine line = true ∧
    ∀ pre post, extract_transcript_lines (pre ++ line :: post) =
      extract_transcript_lines pre ++ pyStrip line ::
        extract_transcript_lines post := by
  have hm : matchesSpeakerTs (pyStrip line) = false := by
    rw [hline]
    exact matchesSpeakerTs_no_ws_dash ws1 ds ws2 t1 t2 hws1 hds hdsd hws2
      hws2s ht1len ht1
  have hne : (pyStrip line).isEmpty = false := by
    rw [hline]; rfl
  have hss : startsWithSlashSlash (pyStrip line) = false := by
    rw [hline]; rfl
  have hk : keepLine line = true := by
    simp [keepLine, hm, hne, hss]
  refine ⟨hk, fun pre post => ?_⟩
  simp [extract_transcript_lines, List.filter_append, List.filter_cons, hk]

/-- Witness for C9 at the concrete line "Speaker 1 0:00:01-0:00:05". -/
theorem c9_dash_without_spaces_retained_witness :
    pyStrip "Speaker 1 0:00:01-0:00:05".toList =
      "Speaker".toList ++ (" ".toList ++ ("1".toList ++ (" ".toList ++
        ("0:00:01".toList ++ '-' :: "0:00:05".toList)))) ∧
    keepLine "Speaker 1 0:00:01-0:00:05".toList = true ∧
    extract_transcript_lines ["Speaker 1 0:00:01-0:00:05".toList] =
      [pyStrip "Speaker 1 0:00:01-0:00:05".toList] := by
  have h := c9_dash_without_spaces_retained
    "Speaker 1 0:00:01-0:00:05".toList
    " ".toList "1".toList " ".toList "0:00:01".toList "0:00:05".toList
    (by decide) (by decide) (by decide) (by decide) (by decide) (by decide)
    (by decide) (by decide) (by decide) (by decide)
  refine ⟨by decide, h.1, ?_⟩
  have h2 := h.2 [] []
  simpa [extract_transcript_lines] using h2

/-- C10: on an existing file all of whose lines are blank after trimming,
start with "//" after trimming, or match the speaker/timestamp pattern,
extraction returns the empty string. -/
theorem c10_all_lines_filtered_empty (fs : FS) (path : List Char)
    (hex : fs.pathExists path = true)
    (hall : ∀ l ∈ fs.readLines path,
      pyStrip l = [] ∨ startsWithSlashSlash (pyStrip l) = true ∨
        matchesSpeakerTs (pyStrip l) = true) :
    extract_transcript_text fs path = [] := by
  have hk : ∀ l ∈ fs.readLines path, ¬ (keepLine l = true) := by
    intro l hl
    rcases hall l hl with h | h | h
    · simp [keepLine, h]
    · simp [keepLine, h]
    · simp [keepLine, h]
  have hf : (fs.readLines path).filter keepLine = [] :=
    List.filter_eq_nil_iff.mpr hk
  simp [extract_transcript_text, hex, extract_text_of_lines,
    extract_transcript_lines, hf, joinSpace]

/-- Witness for C10 on a file holding a comment line, a whitespace-only
line and a speaker/timestamp header. -/
theorem c10_all_lines_filtered_empty_witness :
    fsAllFiltered.pathExists "/watch/transcript.txt".toList = true ∧
    extract_transcript_text fsAllFiltered "/watch/transcript.txt".toList = [] :=
  ⟨rfl, c10_all_lines_filtered_empty fsAllFiltered
    "/watch/transcript.txt".toList rfl (by decide)⟩

/-- C7 counterexample: the claim's "re-run if and only if the modified
entry's base name equals the tracked file's base name" fails on a
directory event: `on_modified` also requires `not event.is_directory`,
so a directory event whose basename equals the tracked basename is
ignored and the output file keeps its stale content instead of being
rewritten with the extraction result. -/
theorem c7_directory_event_counterexample :
    evDirSameName.is_directory = true ∧
    basenameChars evDirSameName.src_path = stWatch.filename ∧
    on_modified fsWatch stWatch evDirSameName oldOut = oldOut ∧
    oldOut ≠ extract_transcript_text fsWatch stWatch.file_path := by
  refine ⟨rfl, by decide, by decide, by decide⟩

/-- C7 amended: the cycle is re-run if and only if the event is not a
directory event and the modified entry's base name equals the tracked
file's base name; every other event (including directory events with a
matching base name) leaves the output file unchanged. -/
theorem c7_rerun_condition (fs : FS) (st : HandlerState) (ev : FsEvent)
    (out_old : List Char) :
    (ev.is_directory = false → basenameChars ev.src_path = st.filename →
      on_modified fs st ev out_old =
        extract_transcript_text fs st.file_path) ∧
    ((ev.is_directory = true ∨ basenameChars ev.src_path ≠ st.filename) →
      on_modified fs st ev out_old = out_old) := by
  constructor
  · intro h1 h2
    simp [on_modified, h1, h2, handler_process]
  · intro h
    rcases h with h | h
    · simp [on_modified, h]
    · have hb : (basenameChars ev.src_path == st.filename) = false := by
        simpa using h
      simp [on_modified, hb]

/-- Witness for C7's amended statement: a file event on the tracked file
triggers the rewrite, a file event on another file leaves the output
unchanged. -/
theorem c7_rerun_condition_witness :
    on_modified fsWatch stWatch evFileSameName oldOut =
      extract_transcript_text fsWatch stWatch.file_path ∧
    on_modified fsWatch stWatch evOtherFile oldOut = oldOut :=
  ⟨(c7_rerun_condition fsWatch stWatch evFileSameName oldOut).1 rfl
      (by decide),
   (c7_rerun_condition fsWatch stWatch evOtherFile oldOut).2
      (Or.inr (by decide))⟩

end Voiceflow
